import Mathlib

/-!
Shallow embedding of the transaction / signature annotation engine found in
`src/background/services/enrichment/index.ts` (EnrichmentService), together
with models of the collaborator interfaces it consumes.  The main functions
embedded from the source are `resolveTransactionAnnotation` and
`enrichSignTypedDataRequest`; helper functions that live outside the given
source tree (address normalization, ERC-20 calldata and log parsing, decimal
enrichment, the EIP-2612 utilities and the `ETHEREUM` constant) are modelled
from the specification and are marked as such in their doc comments.
-/

/-- Hex addresses are modelled as plain strings. -/
abbrev Address := String

/-- Lower-casing a string character by character (the semantics of
JavaScript `toLowerCase` on ASCII hex strings). -/
def lowercase (address : Address) : Address :=
  String.mk (address.data.map Char.toLower)

/-- Modelled from the spec: `normalizeHexAddress` (from the hd-keyring
package, not in the source tree) normalizes the hex case of an address. -/
def normalizeHexAddress (address : Address) : Address :=
  lowercase address

/-- Modelled from the spec: `normalizeEVMAddress` (lib/utils, not in the
source tree) normalizes the hex case of an address. -/
def normalizeEVMAddress (address : Address) : Address :=
  lowercase address

/-- Modelled from the spec: `sameEVMAddress` (lib/utils, not in the source
tree) compares two addresses after case normalization. -/
def sameEVMAddress (a b : Address) : Bool :=
  normalizeEVMAddress a == normalizeEVMAddress b

/-- Optional display metadata of a known asset. -/
structure AssetMetadata where
  logoURL : Option String
  deriving DecidableEq

/-- A fungible asset: a symbol together with a declared decimal precision.
Used for a network's base asset. -/
structure FungibleAsset where
  symbol : String
  decimals : Nat
  deriving DecidableEq

/-- A contract-backed fungible asset, identified by its contract address. -/
structure SmartContractFungibleAsset extends FungibleAsset where
  contractAddress : Address
  metadata : Option AssetMetadata
  deriving DecidableEq

/-- The asset universe that the indexing collaborator can report: base
(network-native) fungible assets, contract-backed fungible assets, and
assets that are not fungible at all. -/
inductive AnyAsset where
  | fungible (asset : FungibleAsset)
  | smartContractFungible (asset : SmartContractFungibleAsset)
  | nonFungible (symbol : String)
  deriving DecidableEq

/-- Modelled from the spec: `isSmartContractFungibleAsset` (assets module,
not in the source tree): only fungible, contract-backed assets participate
in address matching. -/
def isSmartContractFungibleAsset : AnyAsset → Bool
  | AnyAsset.smartContractFungible _ => true
  | _ => false

/-- The declared decimals of an asset (0 for non-fungible assets, which are
never decimal-enriched by the engine). -/
def AnyAsset.decimals : AnyAsset → Nat
  | AnyAsset.fungible a => a.decimals
  | AnyAsset.smartContractFungible a => a.decimals
  | AnyAsset.nonFungible _ => 0

/-- An EVM network, carrying its base asset. -/
structure EVMNetwork where
  name : String
  chainID : Nat
  baseAsset : FungibleAsset
  deriving DecidableEq

/-- Modelled from the spec: the hard-coded `ETHEREUM` network constant
(constants module, not in the source tree). -/
def ETHEREUM : EVMNetwork :=
  { name := "Ethereum", chainID := 1, baseAsset := { symbol := "ETH", decimals := 18 } }

/-- A retrieved block; the engine only reads its timestamp. -/
structure AnyEVMBlock where
  timestamp : Nat
  deriving DecidableEq

/-- Transaction input bytes, abstracted to the decode-relevant shape: the
empty payload `"0x"`, one of the three understood ERC-20 calls, or anything
else (unknown selector or malformed encoding). -/
inductive InputData where
  | empty
  | transferCall (toAddr : Address) (amount : Int)
  | transferFromCall (source : Address) (toAddr : Address) (amount : Int)
  | approveCall (spender : Address) (value : Int)
  | unknownCall (data : String)
  deriving DecidableEq

/-- The discriminated result of ERC-20 calldata decoding. -/
inductive ERC20Tx where
  | transfer (toAddr : Address) (amount : Int)
  | transferFrom (source : Address) (toAddr : Address) (amount : Int)
  | approve (spender : Address) (value : Int)
  deriving DecidableEq

/-- Modelled from the spec: `parseERC20Tx` (lib/erc20, not in the source
tree) decodes the three understood ERC-20 selectors and resolves unknown
selectors, malformed encodings and missing input to no match, never an
error. -/
def parseERC20Tx : Option InputData → Option ERC20Tx
  | some (InputData.transferCall toAddr amount) => some (ERC20Tx.transfer toAddr amount)
  | some (InputData.transferFromCall source toAddr amount) =>
      some (ERC20Tx.transferFrom source toAddr amount)
  | some (InputData.approveCall spender value) => some (ERC20Tx.approve spender value)
  | _ => none

/-- A raw receipt log, abstracted to the decode-relevant shape: either a
well-formed ERC-20 `Transfer` event or anything else. -/
inductive EVMLog where
  | transferLog (contractAddress senderAddress recipientAddress : Address) (amount : Int)
  | otherLog
  deriving DecidableEq

/-- A decoded ERC-20 `Transfer` log. -/
structure ERC20TransferLog where
  contractAddress : Address
  senderAddress : Address
  recipientAddress : Address
  amount : Int
  deriving DecidableEq

/-- Modelled from the spec: `parseLogsForERC20Transfers` (lib/erc20, not in
the source tree) keeps the logs carrying the canonical `Transfer` topic and
skips every other log without reporting failures. -/
def parseLogsForERC20Transfers (logs : List EVMLog) : List ERC20TransferLog :=
  logs.filterMap fun l =>
    match l with
    | EVMLog.transferLog c s r a =>
        some { contractAddress := c, senderAddress := s, recipientAddress := r, amount := a }
    | EVMLog.otherLog => none

/-- An asset reference paired with a raw integer amount. -/
structure AssetAmount where
  asset : AnyAsset
  amount : Int
  deriving DecidableEq

/-- An asset amount enriched with its decimal-adjusted value. -/
structure EnrichedAssetAmount where
  asset : AnyAsset
  amount : Int
  decimalAmount : Int
  deriving DecidableEq

/-- Modelled from the spec: `enrichAssetAmountWithDecimalValues`
(redux-slices/utils/asset-utils, not in the source tree).  Decimal
adjustment is a pure function of the asset's declared decimals and the
requested precision; the raw amount is kept unchanged. -/
def enrichAssetAmountWithDecimalValues (assetAmount : AssetAmount)
    (desiredDecimals : Nat) : EnrichedAssetAmount :=
  { asset := assetAmount.asset
    amount := assetAmount.amount
    decimalAmount :=
      assetAmount.amount * (10 : Int) ^ desiredDecimals / (10 : Int) ^ assetAmount.asset.decimals }

/-- The tag of the four primary annotation variants. -/
inductive AnnotationType where
  | contractDeployment
  | assetTransfer
  | assetApproval
  | contractInteraction
  deriving DecidableEq

/-- A secondary (log-derived) asset-transfer annotation. -/
structure SubAnnotation where
  timestamp : Nat
  blockTimestamp : Option Nat
  senderAddress : Address
  recipientAddress : Address
  recipientName : Option String
  assetAmount : EnrichedAssetAmount
  deriving DecidableEq

/-- The primary transaction annotation, modelled as a record with optional
fields, mirroring the TypeScript object union; a field that the source does
not set on a given variant stays `none`. -/
structure TransactionAnnotation where
  type : AnnotationType
  timestamp : Nat
  blockTimestamp : Option Nat
  senderAddress : Option Address := none
  recipientAddress : Option Address := none
  recipientName : Option String := none
  spenderAddress : Option Address := none
  spenderName : Option String := none
  contractName : Option String := none
  assetAmount : Option EnrichedAssetAmount := none
  transactionLogoURL : Option String := none
  subannotations : Option (List SubAnnotation) := none
  deriving DecidableEq

/-- The transaction object fed to `resolveTransactionAnnotation`.  The TS
`from` field is named `fromAddr` because `from` is a Lean keyword.  `logs`
is `some` exactly when the TS object has a defined `logs` member. -/
structure AnyEVMTransaction where
  fromAddr : Address
  toAddr : Option Address
  input : Option InputData
  value : Option Int
  blockHash : Option String
  logs : Option (List EVMLog)
  deriving DecidableEq

/-- The collaborator environment of the service: block retrieval
(`ChainService.getBlockData`), the known-asset snapshot
(`IndexingService.getCachedAssets`), asynchronous name resolution
(`NameService.lookUpName`, which may reject — modelled by `Except.error`)
and the `Date.now()` clock. -/
structure Env where
  getBlockData : EVMNetwork → String → Option AnyEVMBlock
  getCachedAssets : EVMNetwork → List AnyAsset
  lookUpName : Address → EVMNetwork → Except Unit (Option String)
  now : Nat

/-- The block fetched at the start of resolution: present only when the
transaction references a block hash and the chain service knows the block. -/
def blockOf (env : Env) (network : EVMNetwork) (tx : AnyEVMTransaction) :
    Option AnyEVMBlock :=
  match tx.blockHash with
  | some h => env.getBlockData network h
  | none => none

/-- The `assets.find` expression of the source: the first known asset that
is a contract-backed fungible asset whose contract address equals the given
address up to case. -/
def matchFungibleAsset (assets : List AnyAsset) (address : Address) :
    Option SmartContractFungibleAsset :=
  assets.findSome? fun asset =>
    match asset with
    | AnyAsset.smartContractFungible a =>
        if sameEVMAddress a.contractAddress address then some a else none
    | _ => none

/-- First-occurrence deduplication, the semantics of the JavaScript
`new Set([...])` spread. -/
def insertionDedup (seen : List Address) : List Address → List Address
  | [] => []
  | a :: rest =>
      if a ∈ seen then insertionDedup seen rest
      else a :: insertionDedup (a :: seen) rest

/-- The address list submitted to the name-resolution batch of the
sub-annotation pass: the recipient addresses of all decoded `Transfer`
logs, first occurrences kept. -/
def batchAddresses (logs : List ERC20TransferLog) : List Address :=
  insertionDedup [] (logs.map fun l => l.recipientAddress)

/-- What one settled lookup contributes after the source's
`status === "fulfilled" && value[1] !== undefined` filter: a name only when
the lookup neither rejected nor came back empty. -/
def settledName : Except Unit (Option String) → Option String
  | Except.ok (some n) => some n
  | _ => none

/-- `Object.fromEntries` as a lookup function: later entries override
earlier ones. -/
def fromEntries (entries : List (Address × String)) (key : Address) : Option String :=
  entries.foldl (fun acc e => if e.fst = key then some e.snd else acc) none

/-- The name-resolution batch of the sub-annotation pass: look every address
up concurrently (`Promise.allSettled`), drop rejected lookups and lookups
that returned no name, and flatten the rest to a normalized-address → name
map. -/
def resolveNamesBatch (env : Env) (network : EVMNetwork)
    (addresses : List Address) : Address → Option String :=
  fromEntries (addresses.filterMap fun address =>
    match env.lookUpName address network with
    | Except.ok (some n) => some (normalizeEVMAddress address, n)
    | _ => none)

/-- The sub-annotation pass body: for each decoded `Transfer` log, keep it
only when its contract address matches a known fungible asset, enriching
the amount and attaching the batched recipient name. -/
def subannotationsOf (assets : List AnyAsset) (namesByAddress : Address → Option String)
    (resolvedTime : Nat) (blockTimestamp : Option Nat) (desiredDecimals : Nat)
    (logs : List ERC20TransferLog) : List SubAnnotation :=
  logs.flatMap fun l =>
    let matchingFungibleAsset := matchFungibleAsset assets l.contractAddress
    let recipientName := namesByAddress (normalizeEVMAddress l.recipientAddress)
    match matchingFungibleAsset with
    | some m =>
        [ { timestamp := resolvedTime
            blockTimestamp := blockTimestamp
            senderAddress := l.senderAddress
            recipientAddress := l.recipientAddress
            recipientName := recipientName
            assetAmount := enrichAssetAmountWithDecimalValues
              { asset := AnyAsset.smartContractFungible m, amount := l.amount }
              desiredDecimals } ]
    | none => []

/-- The final `if (subannotations.length > 0)` assignment of the source. -/
def attachSubs (subs : List SubAnnotation) (txAnnotation0 : Option TransactionAnnotation) :
    Option TransactionAnnotation :=
  if subs.length > 0 then
    txAnnotation0.map fun ann => { ann with subannotations := some subs }
  else txAnnotation0

/-- The primary classification of `resolveTransactionAnnotation` (the
`if`/`else if`/`else` chain before the log pass).  Name lookups that reject
surface as `Except.error`, exactly as an awaited rejected promise throws. -/
def resolvePrimary (env : Env) (network : EVMNetwork) (tx : AnyEVMTransaction)
    (desiredDecimals : Nat) (resolvedTime : Nat) (block : Option AnyEVMBlock) :
    Except Unit (Option TransactionAnnotation) :=
  match tx.toAddr with
  | none =>
      -- A missing recipient means a contract deployment.
      Except.ok (some
        { type := AnnotationType.contractDeployment
          timestamp := resolvedTime
          blockTimestamp := block.map fun b => b.timestamp })
  | some toAddr =>
    if tx.input = none ∨ tx.input = some InputData.empty then
      match env.lookUpName toAddr network with
      | Except.error e => Except.error e
      | Except.ok toName =>
        match tx.value with
        | some v =>
            Except.ok (some
              { type := AnnotationType.assetTransfer
                timestamp := resolvedTime
                blockTimestamp := block.map fun b => b.timestamp
                senderAddress := some tx.fromAddr
                recipientName := toName
                recipientAddress := some toAddr
                assetAmount := some (enrichAssetAmountWithDecimalValues
                  { asset := AnyAsset.fungible network.baseAsset, amount := v }
                  desiredDecimals) })
        | none =>
            -- Fall back on a standard contract interaction.
            Except.ok (some
              { type := AnnotationType.contractInteraction
                timestamp := resolvedTime
                blockTimestamp := block.map fun b => b.timestamp
                contractName := toName })
    else
      -- The source let-binds `assets`, `matchingFungibleAsset`,
      -- `transactionLogoURL` and `erc20Tx` here; the bindings are inlined
      -- below (in the three decoded arms the matcher result is the matched
      -- asset itself, so its logo expression reduces to the matched
      -- asset's logo).
      match matchFungibleAsset (env.getCachedAssets network) toAddr, parseERC20Tx tx.input with
      | some matching, some (ERC20Tx.transfer toArg amount) =>
        match env.lookUpName toArg network with
        | Except.error e => Except.error e
        | Except.ok toName =>
            Except.ok (some
              { type := AnnotationType.assetTransfer
                timestamp := resolvedTime
                blockTimestamp := block.map fun b => b.timestamp
                transactionLogoURL := matching.metadata.bind fun m => m.logoURL
                senderAddress := some tx.fromAddr
                recipientAddress := some toArg
                recipientName := toName
                assetAmount := some (enrichAssetAmountWithDecimalValues
                  { asset := AnyAsset.smartContractFungible matching, amount := amount }
                  desiredDecimals) })
      | some matching, some (ERC20Tx.transferFrom source toArg amount) =>
        match env.lookUpName toArg network with
        | Except.error e => Except.error e
        | Except.ok toName =>
            Except.ok (some
              { type := AnnotationType.assetTransfer
                timestamp := resolvedTime
                blockTimestamp := block.map fun b => b.timestamp
                transactionLogoURL := matching.metadata.bind fun m => m.logoURL
                senderAddress := some source
                recipientAddress := some toArg
                recipientName := toName
                assetAmount := some (enrichAssetAmountWithDecimalValues
                  { asset := AnyAsset.smartContractFungible matching, amount := amount }
                  desiredDecimals) })
      | some matching, some (ERC20Tx.approve spender value) =>
        match env.lookUpName spender network with
        | Except.error e => Except.error e
        | Except.ok spenderName =>
            Except.ok (some
              { type := AnnotationType.assetApproval
                timestamp := resolvedTime
                blockTimestamp := block.map fun b => b.timestamp
                transactionLogoURL := matching.metadata.bind fun m => m.logoURL
                spenderAddress := some spender
                spenderName := spenderName
                assetAmount := some (enrichAssetAmountWithDecimalValues
                  { asset := AnyAsset.smartContractFungible matching, amount := value }
                  desiredDecimals) })
      | _, _ =>
        match env.lookUpName toAddr network with
        | Except.error e => Except.error e
        | Except.ok toName =>
            -- Fall back on a standard contract interaction, still carrying
            -- the logo URL when the target matched a known asset.
            Except.ok (some
              { type := AnnotationType.contractInteraction
                timestamp := resolvedTime
                blockTimestamp := block.map fun b => b.timestamp
                transactionLogoURL := (matchFungibleAsset (env.getCachedAssets network) toAddr).bind
                  fun a => a.metadata.bind fun m => m.logoURL
                contractName := toName })

/-- The embedded `resolveTransactionAnnotation`: primary classification
followed by the log-driven sub-annotation pass. -/
def resolveTransactionAnnotation (env : Env) (network : EVMNetwork)
    (tx : AnyEVMTransaction) (desiredDecimals : Nat) :
    Except Unit (Option TransactionAnnotation) :=
  let resolvedTime := env.now
  let block := blockOf env network tx
  match resolvePrimary env network tx desiredDecimals resolvedTime block with
  | Except.error e => Except.error e
  | Except.ok txAnnotation0 =>
    match tx.logs with
    | none => Except.ok txAnnotation0
    | some logs =>
      let assets := env.getCachedAssets network
      let erc20TransferLogs := parseLogsForERC20Transfers logs
      let namesByAddress := resolveNamesBatch env network (batchAddresses erc20TransferLogs)
      let subs := subannotationsOf assets namesByAddress resolvedTime
        (block.map fun b => b.timestamp) desiredDecimals erc20TransferLogs
      Except.ok (attachSubs subs txAnnotation0)

/-- An EIP-712 domain, as read by the typed-data path: the engine uses only
`verifyingContract`; `chainId` is carried to show it is not consulted. -/
structure EIP712Domain where
  name : Option String
  chainId : Option Nat
  verifyingContract : Option Address
  deriving DecidableEq

/-- The message fields of an EIP-2612 permit. -/
structure PermitMessage where
  owner : Address
  spender : Address
  value : Int
  nonce : Nat
  deadline : Nat
  deriving DecidableEq

/-- The payload of a typed-data request, abstracted to the shape-relevant
alternative: either it carries the EIP-2612 permit structure or it does
not. -/
inductive TypedDataPayload where
  | permit (message : PermitMessage)
  | other
  deriving DecidableEq

/-- A typed-data signing request (`typedData` of `SignTypedDataRequest`). -/
structure TypedData where
  domain : EIP712Domain
  payload : TypedDataPayload
  deriving DecidableEq

/-- The typed-data annotation variants. -/
inductive SignTypedDataAnnotation where
  | unrecognized
  | eip2612Permit (owner spender : Address) (value : Int) (deadline : Nat)
      (asset : Option SmartContractFungibleAsset)
  deriving DecidableEq

/-- Modelled from the spec: `isEIP2612TypedData` (enrichment/utils, not in
the source tree) checks the domain/message shape against the EIP-2612
permit schema. -/
def isEIP2612TypedData (td : TypedData) : Bool :=
  match td.payload with
  | TypedDataPayload.permit _ => true
  | TypedDataPayload.other => false

/-- Modelled from the spec: `enrichEIP2612SignTypedDataRequest`
(enrichment/utils, not in the source tree) produces the permit annotation
(owner, spender, amount, deadline, asset); the asset may be missing and the
permit annotation is still emitted. -/
def enrichEIP2612SignTypedDataRequest (td : TypedData)
    (correspondingAsset : Option SmartContractFungibleAsset) :
    SignTypedDataAnnotation :=
  match td.payload with
  | TypedDataPayload.permit m =>
      SignTypedDataAnnotation.eip2612Permit m.owner m.spender m.value m.deadline
        correspondingAsset
  | TypedDataPayload.other => SignTypedDataAnnotation.unrecognized

/-- The `assets.find` expression of `enrichSignTypedDataRequest`: the first
contract-backed asset whose contract address equals the domain's verifying
contract after `normalizeHexAddress`; no match when the domain has no
verifying contract. -/
def correspondingAssetOf (assets : List AnyAsset) (td : TypedData) :
    Option SmartContractFungibleAsset :=
  assets.findSome? fun asset =>
    match asset, td.domain.verifyingContract with
    | AnyAsset.smartContractFungible a, some vc =>
        if normalizeHexAddress a.contractAddress = normalizeHexAddress vc then some a
        else none
    | _, _ => none

/-- The embedded `enrichSignTypedDataRequest`: the annotation attached to a
typed-data signing request.  Note the asset snapshot is read for the
hard-coded `ETHEREUM` constant. -/
def enrichSignTypedDataRequest (env : Env) (td : TypedData) :
    SignTypedDataAnnotation :=
  if isEIP2612TypedData td then
    let assets := env.getCachedAssets ETHEREUM
    let correspondingAsset := correspondingAssetOf assets td
    enrichEIP2612SignTypedDataRequest td correspondingAsset
  else SignTypedDataAnnotation.unrecognized

/-- Spec-side definition, following the words of the classification claim:
the primary annotation type decided by the first matching rule of the fixed
order (deployment, empty-input, decoded transfer with matched asset,
decoded approve with matched asset, generic interaction). -/
def specPrimaryType (assets : List AnyAsset) (tx : AnyEVMTransaction) :
    AnnotationType :=
  match tx.toAddr with
  | none => AnnotationType.contractDeployment
  | some toAddr =>
    if tx.input = none ∨ tx.input = some InputData.empty then
      if tx.value = none then AnnotationType.contractInteraction
      else AnnotationType.assetTransfer
    else
      match parseERC20Tx tx.input, matchFungibleAsset assets toAddr with
      | some (ERC20Tx.transfer _ _), some _ => AnnotationType.assetTransfer
      | some (ERC20Tx.transferFrom _ _ _), some _ => AnnotationType.assetTransfer
      | some (ERC20Tx.approve _ _), some _ => AnnotationType.assetApproval
      | _, _ => AnnotationType.contractInteraction

/-- Spec-side definition, following the words of the batching claim: the
distinct recipient addresses of only those decoded `Transfer` logs whose
contract matched a known asset. -/
def claimedBatchAddresses (assets : List AnyAsset) (logs : List ERC20TransferLog) :
    List Address :=
  insertionDedup []
    ((logs.filter fun l => (matchFungibleAsset assets l.contractAddress).isSome).map
      fun l => l.recipientAddress)

/-- The number of decoded `Transfer` logs whose contract address matched a
known fungible asset. -/
def matchedLogCount (assets : List AnyAsset) (logs : List ERC20TransferLog) : Nat :=
  logs.countP fun l => (matchFungibleAsset assets l.contractAddress).isSome

/-! Concrete fixtures used to exercise the embedding on closed inputs. -/

/-- An environment with no known assets whose name lookups always resolve
with no name. -/
def okNoneEnv : Env :=
  { getBlockData := fun _ _ => none
    getCachedAssets := fun _ => []
    lookUpName := fun _ _ => Except.ok none
    now := 0 }

/-- A known contract-backed fungible asset carrying a logo URL. -/
def tokenAsset : SmartContractFungibleAsset :=
  { symbol := "TKN", decimals := 6, contractAddress := "0xToKeN",
    metadata := some { logoURL := some "https://logo" } }

/-- An environment knowing exactly `tokenAsset`; name lookups resolve with
no name. -/
def assetsEnv : Env :=
  { getBlockData := fun _ _ => none
    getCachedAssets := fun _ => [AnyAsset.smartContractFungible tokenAsset]
    lookUpName := fun _ _ => Except.ok none
    now := 0 }

/-- An environment whose name lookups always reject. -/
def rejectingEnv : Env :=
  { getBlockData := fun _ _ => none
    getCachedAssets := fun _ => []
    lookUpName := fun _ _ => Except.error ()
    now := 0 }

/-- An environment that knows `tokenAsset` and resolves the name of exactly
one address, rejecting every other lookup. -/
def mixedNamesEnv : Env :=
  { getBlockData := fun _ _ => none
    getCachedAssets := fun _ => [AnyAsset.smartContractFungible tokenAsset]
    lookUpName := fun a _ => if a = "0xgood" then Except.ok (some "alice") else Except.error ()
    now := 0 }

/-- A plain base-asset send: empty input, value present. -/
def plainSendTx : AnyEVMTransaction :=
  { fromAddr := "0xsender", toAddr := some "0xrecipient", input := none,
    value := some 5, blockHash := none, logs := none }

/-- Empty input, no value, targeting the known asset contract. -/
def interactionTx : AnyEVMTransaction :=
  { fromAddr := "0xme", toAddr := some "0xtoken", input := none,
    value := none, blockHash := none, logs := none }

/-- Empty input with a zero value. -/
def zeroValueTx : AnyEVMTransaction :=
  { fromAddr := "0xme", toAddr := some "0xyou", input := some InputData.empty,
    value := some 0, blockHash := none, logs := none }

/-- An ERC-20 `transfer` call targeting the known asset contract. -/
def transferTx : AnyEVMTransaction :=
  { fromAddr := "0xme", toAddr := some "0xtoken",
    input := some (InputData.transferCall "0xbbb" 5000000),
    value := none, blockHash := none, logs := none }

/-- A transaction carrying one `Transfer` log that matches the known asset,
one that does not, and one undecodable log. -/
def loggedTx : AnyEVMTransaction :=
  { fromAddr := "0xme", toAddr := some "0xyou", input := some InputData.empty,
    value := some 7, blockHash := none,
    logs := some [EVMLog.transferLog "0xToKeN" "0xa" "0xgood" 5,
      EVMLog.transferLog "0xother" "0xc" "0xd" 9, EVMLog.otherLog] }

/-- A decoded `Transfer` log whose contract matches no known asset. -/
def unmatchedLog : ERC20TransferLog :=
  { contractAddress := "0xccc", senderAddress := "0xaaa",
    recipientAddress := "0xbbb", amount := 1 }

/-- The domain of a sample EIP-2612 permit request naming a non-Ethereum
chain. -/
def permitDomain : EIP712Domain :=
  { name := some "Tok", chainId := some 137, verifyingContract := some "0xToKeN" }

/-- The message of the sample permit request. -/
def permitMessage : PermitMessage :=
  { owner := "0xowner", spender := "0xspender", value := 9, nonce := 0, deadline := 99 }

/-- The sample permit typed-data request itself. -/
def permitTd : TypedData :=
  { domain := permitDomain, payload := TypedDataPayload.permit permitMessage }

/-- A typed-data request that does not carry the permit shape. -/
def otherTd : TypedData :=
  { domain := { name := none, chainId := some 1, verifyingContract := none },
    payload := TypedDataPayload.other }

/-- The annotation the resolver produces for `zeroValueTx` under
`okNoneEnv`. -/
def zeroValueAnn : TransactionAnnotation :=
  { type := AnnotationType.assetTransfer, timestamp := 0, blockTimestamp := none,
    senderAddress := some "0xme", recipientAddress := some "0xyou",
    assetAmount := some (enrichAssetAmountWithDecimalValues
      { asset := AnyAsset.fungible ETHEREUM.baseAsset, amount := 0 } 2) }

/-- A call with an unknown selector targeting the known asset contract. -/
def unknownCallTx : AnyEVMTransaction :=
  { fromAddr := "0xme", toAddr := some "0xtoken",
    input := some (InputData.unknownCall "0xdeadbeef"),
    value := none, blockHash := none, logs := none }

/-- The annotation the resolver produces for `unknownCallTx` under
`assetsEnv`. -/
def unknownCallAnn : TransactionAnnotation :=
  { type := AnnotationType.contractInteraction, timestamp := 0, blockTimestamp := none,
    transactionLogoURL := some "https://logo" }

/-- The sub-annotation derived from the matching log of `loggedTx`. -/
def loggedSubAnn : SubAnnotation :=
  { timestamp := 0, blockTimestamp := none, senderAddress := "0xa",
    recipientAddress := "0xgood", recipientName := none,
    assetAmount := enrichAssetAmountWithDecimalValues
      { asset := AnyAsset.smartContractFungible tokenAsset, amount := 5 } 2 }

/-- The annotation the resolver produces for `loggedTx` under
`assetsEnv`. -/
def loggedAnn : TransactionAnnotation :=
  { type := AnnotationType.assetTransfer, timestamp := 0, blockTimestamp := none,
    senderAddress := some "0xme", recipientAddress := some "0xyou",
    assetAmount := some (enrichAssetAmountWithDecimalValues
      { asset := AnyAsset.fungible ETHEREUM.baseAsset, amount := 7 } 2),
    subannotations := some [loggedSubAnn] }

/-- The annotation the resolver produces for `transferTx` under
`assetsEnv`. -/
def transferAnn : TransactionAnnotation :=
  { type := AnnotationType.assetTransfer, timestamp := 0, blockTimestamp := none,
    transactionLogoURL := some "https://logo",
    senderAddress := some "0xme", recipientAddress := some "0xbbb",
    assetAmount := some (enrichAssetAmountWithDecimalValues
      { asset := AnyAsset.smartContractFungible tokenAsset, amount := 5000000 } 2) }


/-! Helper lemmas about the resolver. -/

theorem attachSubs_none (subs : List SubAnnotation) : attachSubs subs none = none := by
  unfold attachSubs; split <;> rfl

theorem attachSubs_some (subs : List SubAnnotation) (a : TransactionAnnotation) :
    attachSubs subs (some a) =
      some (if subs.length > 0 then { a with subannotations := some subs } else a) := by
  unfold attachSubs; split <;> simp_all

theorem resolve_eq (env : Env) (network : EVMNetwork) (tx : AnyEVMTransaction) (d : Nat) :
    resolveTransactionAnnotation env network tx d =
      match resolvePrimary env network tx d env.now (blockOf env network tx) with
      | Except.error e => Except.error e
      | Except.ok o =>
        match tx.logs with
        | none => Except.ok o
        | some logs =>
          Except.ok (attachSubs
            (subannotationsOf (env.getCachedAssets network)
              (resolveNamesBatch env network (batchAddresses (parseLogsForERC20Transfers logs)))
              env.now ((blockOf env network tx).map fun b => b.timestamp) d
              (parseLogsForERC20Transfers logs)) o) := rfl

theorem resolve_eq_nologs (env : Env) (network : EVMNetwork)
    (tx : AnyEVMTransaction) (d : Nat) (o : Option TransactionAnnotation)
    (hlogs : tx.logs = none)
    (hp : resolvePrimary env network tx d env.now (blockOf env network tx) = Except.ok o) :
    resolveTransactionAnnotation env network tx d = Except.ok o := by
  rw [resolve_eq, hp, hlogs]

theorem resolve_eq_logs (env : Env) (network : EVMNetwork)
    (tx : AnyEVMTransaction) (d : Nat) (o : Option TransactionAnnotation)
    (logs : List EVMLog) (hlogs : tx.logs = some logs)
    (hp : resolvePrimary env network tx d env.now (blockOf env network tx) = Except.ok o) :
    resolveTransactionAnnotation env network tx d =
      Except.ok (attachSubs
        (subannotationsOf (env.getCachedAssets network)
          (resolveNamesBatch env network (batchAddresses (parseLogsForERC20Transfers logs)))
          env.now ((blockOf env network tx).map fun b => b.timestamp) d
          (parseLogsForERC20Transfers logs)) o) := by
  rw [resolve_eq, hp, hlogs]

theorem resolvePrimary_subs_none (env : Env) (network : EVMNetwork)
    (tx : AnyEVMTransaction) (d rt : Nat) (blk : Option AnyEVMBlock)
    (a : TransactionAnnotation)
    (h : resolvePrimary env network tx d rt blk = Except.ok (some a)) :
    a.subannotations = none := by
  unfold resolvePrimary at h
  repeat' split at h
  all_goals simp_all
  all_goals (subst h; rfl)

section ShapeLemmas

variable (env : Env) (network : EVMNetwork) (tx : AnyEVMTransaction)
variable (d rt : Nat) (blk : Option AnyEVMBlock)

theorem resolvePrimary_deployment (hto : tx.toAddr = none) :
    resolvePrimary env network tx d rt blk = Except.ok (some
      { type := AnnotationType.contractDeployment
        timestamp := rt
        blockTimestamp := blk.map fun b => b.timestamp }) := by
  simp only [resolvePrimary, hto]

theorem resolvePrimary_emptyInput (t : Address) (hto : tx.toAddr = some t)
    (hin : tx.input = none ∨ tx.input = some InputData.empty) :
    resolvePrimary env network tx d rt blk =
      match env.lookUpName t network with
      | Except.error e => Except.error e
      | Except.ok toName =>
        match tx.value with
        | some v =>
            Except.ok (some
              { type := AnnotationType.assetTransfer
                timestamp := rt
                blockTimestamp := blk.map fun b => b.timestamp
                senderAddress := some tx.fromAddr
                recipientName := toName
                recipientAddress := some t
                assetAmount := some (enrichAssetAmountWithDecimalValues
                  { asset := AnyAsset.fungible network.baseAsset, amount := v } d) })
        | none =>
            Except.ok (some
              { type := AnnotationType.contractInteraction
                timestamp := rt
                blockTimestamp := blk.map fun b => b.timestamp
                contractName := toName }) := by
  simp only [resolvePrimary, hto]
  rw [if_pos hin]

theorem resolvePrimary_transfer (t ta : Address) (am : Int)
    (m : SmartContractFungibleAsset)
    (hto : tx.toAddr = some t)
    (hne : ¬(tx.input = none ∨ tx.input = some InputData.empty))
    (hm : matchFungibleAsset (env.getCachedAssets network) t = some m)
    (hpe : parseERC20Tx tx.input = some (ERC20Tx.transfer ta am)) :
    resolvePrimary env network tx d rt blk =
      match env.lookUpName ta network with
      | Except.error e => Except.error e
      | Except.ok toName =>
          Except.ok (some
            { type := AnnotationType.assetTransfer
              timestamp := rt
              blockTimestamp := blk.map fun b => b.timestamp
              transactionLogoURL := m.metadata.bind fun md => md.logoURL
              senderAddress := some tx.fromAddr
              recipientAddress := some ta
              recipientName := toName
              assetAmount := some (enrichAssetAmountWithDecimalValues
                { asset := AnyAsset.smartContractFungible m, amount := am } d) }) := by
  simp only [resolvePrimary, hto]
  rw [if_neg hne, hm, hpe]

theorem resolvePrimary_transferFrom (t sa ta : Address) (am : Int)
    (m : SmartContractFungibleAsset)
    (hto : tx.toAddr = some t)
    (hne : ¬(tx.input = none ∨ tx.input = some InputData.empty))
    (hm : matchFungibleAsset (env.getCachedAssets network) t = some m)
    (hpe : parseERC20Tx tx.input = some (ERC20Tx.transferFrom sa ta am)) :
    resolvePrimary env network tx d rt blk =
      match env.lookUpName ta network with
      | Except.error e => Except.error e
      | Except.ok toName =>
          Except.ok (some
            { type := AnnotationType.assetTransfer
              timestamp := rt
              blockTimestamp := blk.map fun b => b.timestamp
              transactionLogoURL := m.metadata.bind fun md => md.logoURL
              senderAddress := some sa
              recipientAddress := some ta
              recipientName := toName
              assetAmount := some (enrichAssetAmountWithDecimalValues
                { asset := AnyAsset.smartContractFungible m, amount := am } d) }) := by
  simp only [resolvePrimary, hto]
  rw [if_neg hne, hm, hpe]

theorem resolvePrimary_approve (t sp : Address) (va : Int)
    (m : SmartContractFungibleAsset)
    (hto : tx.toAddr = some t)
    (hne : ¬(tx.input = none ∨ tx.input = some InputData.empty))
    (hm : matchFungibleAsset (env.getCachedAssets network) t = some m)
    (hpe : parseERC20Tx tx.input = some (ERC20Tx.approve sp va)) :
    resolvePrimary env network tx d rt blk =
      match env.lookUpName sp network with
      | Except.error e => Except.error e
      | Except.ok spenderName =>
          Except.ok (some
            { type := AnnotationType.assetApproval
              timestamp := rt
              blockTimestamp := blk.map fun b => b.timestamp
              transactionLogoURL := m.metadata.bind fun md => md.logoURL
              spenderAddress := some sp
              spenderName := spenderName
              assetAmount := some (enrichAssetAmountWithDecimalValues
                { asset := AnyAsset.smartContractFungible m, amount := va } d) }) := by
  simp only [resolvePrimary, hto]
  rw [if_neg hne, hm, hpe]

theorem resolvePrimary_fallbackNoDecode (t : Address)
    (mo : Option SmartContractFungibleAsset)
    (hto : tx.toAddr = some t)
    (hne : ¬(tx.input = none ∨ tx.input = some InputData.empty))
    (hm : matchFungibleAsset (env.getCachedAssets network) t = mo)
    (hpe : parseERC20Tx tx.input = none) :
    resolvePrimary env network tx d rt blk =
      match env.lookUpName t network with
      | Except.error e => Except.error e
      | Except.ok toName =>
          Except.ok (some
            { type := AnnotationType.contractInteraction
              timestamp := rt
              blockTimestamp := blk.map fun b => b.timestamp
              transactionLogoURL := mo.bind fun a => a.metadata.bind fun md => md.logoURL
              contractName := toName }) := by
  subst hm
  simp only [resolvePrimary, hto]
  rw [if_neg hne, hpe]
  rcases matchFungibleAsset (env.getCachedAssets network) t with _ | m <;> rfl

theorem resolvePrimary_fallbackNoMatch (t : Address) (etx : ERC20Tx)
    (hto : tx.toAddr = some t)
    (hne : ¬(tx.input = none ∨ tx.input = some InputData.empty))
    (hm : matchFungibleAsset (env.getCachedAssets network) t = none)
    (hpe : parseERC20Tx tx.input = some etx) :
    resolvePrimary env network tx d rt blk =
      match env.lookUpName t network with
      | Except.error e => Except.error e
      | Except.ok toName =>
          Except.ok (some
            { type := AnnotationType.contractInteraction
              timestamp := rt
              blockTimestamp := blk.map fun b => b.timestamp
              transactionLogoURL := none
              contractName := toName }) := by
  simp only [resolvePrimary, hto]
  rw [if_neg hne, hm, hpe]
  rcases etx with ⟨ta, am⟩ | ⟨sa, ta, am⟩ | ⟨sp, va⟩ <;> rfl

end ShapeLemmas

theorem resolvePrimary_total (env : Env) (network : EVMNetwork)
    (tx : AnyEVMTransaction) (d rt : Nat) (blk : Option AnyEVMBlock)
    (hl : ∀ a n, env.lookUpName a n ≠ Except.error ()) :
    ∃ a, resolvePrimary env network tx d rt blk = Except.ok (some a) := by
  have elim : ∀ x : Except Unit (Option String), (∀ e, x ≠ Except.error e) →
      ∃ r, x = Except.ok r := by
    intro x hx
    rcases x with e | r
    · exact absurd rfl (hx e)
    · exact ⟨r, rfl⟩
  rcases htxto : tx.toAddr with _ | t
  · exact ⟨_, resolvePrimary_deployment env network tx d rt blk htxto⟩
  · by_cases hin : tx.input = none ∨ tx.input = some InputData.empty
    · obtain ⟨r, hr⟩ := elim (env.lookUpName t network) (fun e => by cases e; exact hl _ _)
      rw [resolvePrimary_emptyInput env network tx d rt blk t htxto hin, hr]
      rcases tx.value with _ | v
      · exact ⟨_, rfl⟩
      · exact ⟨_, rfl⟩
    · rcases hm : matchFungibleAsset (env.getCachedAssets network) t with _ | m
      · rcases hpe : parseERC20Tx tx.input with _ | etx
        · obtain ⟨r, hr⟩ := elim (env.lookUpName t network) (fun e => by cases e; exact hl _ _)
          rw [resolvePrimary_fallbackNoDecode env network tx d rt blk t none htxto hin hm hpe, hr]
          exact ⟨_, rfl⟩
        · obtain ⟨r, hr⟩ := elim (env.lookUpName t network) (fun e => by cases e; exact hl _ _)
          rw [resolvePrimary_fallbackNoMatch env network tx d rt blk t etx htxto hin hm hpe, hr]
          exact ⟨_, rfl⟩
      · rcases hpe : parseERC20Tx tx.input with _ | etx
        · obtain ⟨r, hr⟩ := elim (env.lookUpName t network) (fun e => by cases e; exact hl _ _)
          rw [resolvePrimary_fallbackNoDecode env network tx d rt blk t (some m) htxto hin hm hpe, hr]
          exact ⟨_, rfl⟩
        · rcases etx with ⟨ta, am⟩ | ⟨sa, ta, am⟩ | ⟨sp, va⟩
          · obtain ⟨r, hr⟩ := elim (env.lookUpName ta network) (fun e => by cases e; exact hl _ _)
            rw [resolvePrimary_transfer env network tx d rt blk t ta am m htxto hin hm hpe, hr]
            exact ⟨_, rfl⟩
          · obtain ⟨r, hr⟩ := elim (env.lookUpName ta network) (fun e => by cases e; exact hl _ _)
            rw [resolvePrimary_transferFrom env network tx d rt blk t sa ta am m htxto hin hm hpe, hr]
            exact ⟨_, rfl⟩
          · obtain ⟨r, hr⟩ := elim (env.lookUpName sp network) (fun e => by cases e; exact hl _ _)
            rw [resolvePrimary_approve env network tx d rt blk t sp va m htxto hin hm hpe, hr]
            exact ⟨_, rfl⟩

theorem resolvePrimary_type (env : Env) (network : EVMNetwork)
    (tx : AnyEVMTransaction) (d rt : Nat) (blk : Option AnyEVMBlock)
    (a : TransactionAnnotation)
    (h : resolvePrimary env network tx d rt blk = Except.ok (some a)) :
    a.type = specPrimaryType (env.getCachedAssets network) tx := by
  rcases htxto : tx.toAddr with _ | t
  · rw [resolvePrimary_deployment env network tx d rt blk htxto] at h
    injection h with h1
    injection h1 with h2
    subst h2
    simp [specPrimaryType, htxto]
  · by_cases hin : tx.input = none ∨ tx.input = some InputData.empty
    · rw [resolvePrimary_emptyInput env network tx d rt blk t htxto hin] at h
      rcases hlu : env.lookUpName t network with e | nm
      · rw [hlu] at h; simp at h
      · rw [hlu] at h
        rcases hv : tx.value with _ | v
        · rw [hv] at h
          injection h with h1
          injection h1 with h2
          subst h2
          simp only [specPrimaryType, htxto]
          rw [if_pos hin]
          simp [hv]
        · rw [hv] at h
          injection h with h1
          injection h1 with h2
          subst h2
          simp only [specPrimaryType, htxto]
          rw [if_pos hin]
          simp [hv]
    · rcases hm : matchFungibleAsset (env.getCachedAssets network) t with _ | m
      · rcases hpe : parseERC20Tx tx.input with _ | etx
        · rw [resolvePrimary_fallbackNoDecode env network tx d rt blk t none htxto hin hm hpe] at h
          rcases hlu : env.lookUpName t network with e | nm
          · rw [hlu] at h; simp at h
          · rw [hlu] at h
            injection h with h1
            injection h1 with h2
            subst h2
            simp only [specPrimaryType, htxto]
            rw [if_neg hin]
            simp [hpe]
        · rw [resolvePrimary_fallbackNoMatch env network tx d rt blk t etx htxto hin hm hpe] at h
          rcases hlu : env.lookUpName t network with e | nm
          · rw [hlu] at h; simp at h
          · rw [hlu] at h
            injection h with h1
            injection h1 with h2
            subst h2
            simp only [specPrimaryType, htxto]
            rw [if_neg hin]
            rcases etx with ⟨ta, am⟩ | ⟨sa, ta, am⟩ | ⟨sp, va⟩ <;> simp [hpe, hm]
      · rcases hpe : parseERC20Tx tx.input with _ | etx
        · rw [resolvePrimary_fallbackNoDecode env network tx d rt blk t (some m) htxto hin hm hpe] at h
          rcases hlu : env.lookUpName t network with e | nm
          · rw [hlu] at h; simp at h
          · rw [hlu] at h
            injection h with h1
            injection h1 with h2
            subst h2
            simp only [specPrimaryType, htxto]
            rw [if_neg hin]
            simp [hpe]
        · rcases etx with ⟨ta, am⟩ | ⟨sa, ta, am⟩ | ⟨sp, va⟩
          · rw [resolvePrimary_transfer env network tx d rt blk t ta am m htxto hin hm hpe] at h
            rcases hlu : env.lookUpName ta network with e | nm
            · rw [hlu] at h; simp at h
            · rw [hlu] at h
              injection h with h1
              injection h1 with h2
              subst h2
              simp only [specPrimaryType, htxto]
              rw [if_neg hin]
              simp [hpe, hm]
          · rw [resolvePrimary_transferFrom env network tx d rt blk t sa ta am m htxto hin hm hpe] at h
            rcases hlu : env.lookUpName ta network with e | nm
            · rw [hlu] at h; simp at h
            · rw [hlu] at h
              injection h with h1
              injection h1 with h2
              subst h2
              simp only [specPrimaryType, htxto]
              rw [if_neg hin]
              simp [hpe, hm]
          · rw [resolvePrimary_approve env network tx d rt blk t sp va m htxto hin hm hpe] at h
            rcases hlu : env.lookUpName sp network with e | nm
            · rw [hlu] at h; simp at h
            · rw [hlu] at h
              injection h with h1
              injection h1 with h2
              subst h2
              simp only [specPrimaryType, htxto]
              rw [if_neg hin]
              simp [hpe, hm]

theorem resolve_ok_elim (env : Env) (network : EVMNetwork)
    (tx : AnyEVMTransaction) (d : Nat) (ann : TransactionAnnotation)
    (h : resolveTransactionAnnotation env network tx d = Except.ok (some ann)) :
    ∃ a0, resolvePrimary env network tx d env.now (blockOf env network tx) =
        Except.ok (some a0) ∧
      ann.type = a0.type ∧ ann.timestamp = a0.timestamp ∧
      ann.blockTimestamp = a0.blockTimestamp ∧
      ann.senderAddress = a0.senderAddress ∧
      ann.recipientAddress = a0.recipientAddress ∧
      ann.recipientName = a0.recipientName ∧
      ann.spenderAddress = a0.spenderAddress ∧
      ann.spenderName = a0.spenderName ∧
      ann.contractName = a0.contractName ∧
      ann.assetAmount = a0.assetAmount ∧
      ann.transactionLogoURL = a0.transactionLogoURL := by
  rw [resolve_eq] at h
  rcases hp : resolvePrimary env network tx d env.now (blockOf env network tx) with e | o
  · rw [hp] at h; simp at h
  · rw [hp] at h
    rcases hlogs : tx.logs with _ | logs
    · rw [hlogs] at h
      injection h with h1
      subst h1
      exact ⟨ann, rfl, rfl, rfl, rfl, rfl, rfl, rfl, rfl, rfl, rfl, rfl, rfl⟩
    · rw [hlogs] at h
      injection h with h1
      rcases o with _ | a0
      · rw [attachSubs_none] at h1
        exact absurd h1 (by simp)
      · rw [attachSubs_some] at h1
        injection h1 with h2
        subst h2
        refine ⟨a0, rfl, ?_⟩
        by_cases hc : (subannotationsOf (env.getCachedAssets network)
            (resolveNamesBatch env network (batchAddresses (parseLogsForERC20Transfers logs)))
            env.now ((blockOf env network tx).map fun b => b.timestamp) d
            (parseLogsForERC20Transfers logs)).length > 0 <;>
          simp [hc]

theorem parse_some_ne_empty (tx : AnyEVMTransaction) (etx : ERC20Tx)
    (hpe : parseERC20Tx tx.input = some etx) :
    ¬(tx.input = none ∨ tx.input = some InputData.empty) := by
  rintro (hc | hc) <;> rw [hc] at hpe <;> simp [parseERC20Tx] at hpe

theorem fromEntries_skip (entries : List (Address × String)) (key : Address)
    (init : Option String) (hne : ∀ e ∈ entries, e.fst ≠ key) :
    entries.foldl (fun acc e => if e.fst = key then some e.snd else acc) init = init := by
  induction entries generalizing init with
  | nil => rfl
  | cons e rest ih =>
    rw [List.foldl_cons, if_neg (hne e (by simp))]
    exact ih init (fun x hx => hne x (by simp [hx]))

theorem batchEntry_fst (env : Env) (network : EVMNetwork) (l : List Address) :
    ∀ p ∈ (l.filterMap fun address =>
        match env.lookUpName address network with
        | Except.ok (some n) => some (normalizeEVMAddress address, n)
        | _ => none),
      p.fst ∈ l.map normalizeEVMAddress := by
  intro p hp
  rw [List.mem_filterMap] at hp
  obtain ⟨x, hx, hfx⟩ := hp
  rcases hlu : env.lookUpName x network with e | r
  · rw [hlu] at hfx; simp at hfx
  · rcases r with _ | n
    · rw [hlu] at hfx; simp at hfx
    · rw [hlu] at hfx
      injection hfx with hfx
      subst hfx
      exact List.mem_map_of_mem _ hx

theorem resolveNamesBatch_lookup (env : Env) (network : EVMNetwork)
    (addresses : List Address) (a : Address) (ha : a ∈ addresses)
    (hnd : (addresses.map normalizeEVMAddress).Nodup) :
    resolveNamesBatch env network addresses (normalizeEVMAddress a) =
      settledName (env.lookUpName a network) := by
  induction addresses with
  | nil => cases ha
  | cons b rest ih =>
    rw [List.map_cons, List.nodup_cons] at hnd
    obtain ⟨hb, hrest⟩ := hnd
    unfold resolveNamesBatch fromEntries
    rw [List.filterMap_cons]
    rcases List.mem_cons.mp ha with rfl | hmem
    · have hskip : ∀ p ∈ (rest.filterMap fun address =>
          match env.lookUpName address network with
          | Except.ok (some n) => some (normalizeEVMAddress address, n)
          | _ => none), p.fst ≠ normalizeEVMAddress a := by
        intro p hp he
        exact hb (he ▸ batchEntry_fst env network rest p hp)
      rcases hlu : env.lookUpName a network with e | r
      · simp only [hlu]
        rw [fromEntries_skip _ _ _ hskip]
        simp [settledName]
      · rcases r with _ | n
        · simp only [hlu]
          rw [fromEntries_skip _ _ _ hskip]
          simp [settledName]
        · simp only [hlu]
          rw [List.foldl_cons, if_pos rfl]
          rw [fromEntries_skip _ _ _ hskip]
          simp [settledName]
    · have hne : normalizeEVMAddress b ≠ normalizeEVMAddress a := by
        intro he
        exact hb (he ▸ List.mem_map_of_mem _ hmem)
      have ihres := ih hmem hrest
      unfold resolveNamesBatch fromEntries at ihres
      rcases hlu : env.lookUpName b network with e | r
      · simp only [hlu]
        exact ihres
      · rcases r with _ | n
        · simp only [hlu]
          exact ihres
        · simp only [hlu]
          rw [List.foldl_cons, if_neg hne]
          exact ihres

theorem mem_insertionDedup (a : Address) (l : List Address) : ∀ (seen : List Address),
    a ∈ insertionDedup seen l ↔ a ∈ l ∧ a ∉ seen := by
  induction l with
  | nil => intro seen; simp [insertionDedup]
  | cons b rest ih =>
    intro seen
    unfold insertionDedup
    by_cases hb : b ∈ seen
    · rw [if_pos hb, ih seen]
      constructor
      · rintro ⟨h1, h2⟩
        exact ⟨List.mem_cons_of_mem _ h1, h2⟩
      · rintro ⟨h1, h2⟩
        rcases List.mem_cons.mp h1 with rfl | h1
        · exact absurd hb h2
        · exact ⟨h1, h2⟩
    · rw [if_neg hb, List.mem_cons, ih (b :: seen)]
      constructor
      · rintro (rfl | ⟨h1, h2⟩)
        · exact ⟨List.mem_cons_self _ _, hb⟩
        · refine ⟨List.mem_cons_of_mem _ h1, fun hx => h2 (List.mem_cons_of_mem _ hx)⟩
      · rintro ⟨h1, h2⟩
        by_cases hab : a = b
        · exact Or.inl hab
        · right
          rcases List.mem_cons.mp h1 with rfl | h1
          · exact absurd rfl hab
          · refine ⟨h1, ?_⟩
            rw [List.mem_cons]
            rintro (h | h)
            · exact hab h
            · exact h2 h

theorem nodup_insertionDedup (l : List Address) : ∀ (seen : List Address),
    (insertionDedup seen l).Nodup := by
  induction l with
  | nil => intro seen; simp [insertionDedup]
  | cons b rest ih =>
    intro seen
    unfold insertionDedup
    by_cases hb : b ∈ seen
    · rw [if_pos hb]; exact ih seen
    · rw [if_neg hb, List.nodup_cons]
      refine ⟨fun hx => ?_, ih (b :: seen)⟩
      exact ((mem_insertionDedup b rest (b :: seen)).mp hx).2 (List.mem_cons_self _ _)

theorem length_subannotationsOf (assets : List AnyAsset) (nm : Address → Option String)
    (rt : Nat) (bts : Option Nat) (d : Nat) (logs : List ERC20TransferLog) :
    (subannotationsOf assets nm rt bts d logs).length = matchedLogCount assets logs := by
  induction logs with
  | nil => rfl
  | cons l rest ih =>
    unfold subannotationsOf matchedLogCount at ih ⊢
    rw [List.flatMap_cons, List.countP_cons, List.length_append, ih]
    rcases hm : matchFungibleAsset assets l.contractAddress with _ | m
    · simp [hm]
    · simp [hm]
      omega

theorem recipientName_subannotationsOf (assets : List AnyAsset)
    (nm : Address → Option String) (rt : Nat) (bts : Option Nat) (d : Nat)
    (logs : List ERC20TransferLog) (hnm : ∀ k, nm k = none) :
    ∀ s ∈ subannotationsOf assets nm rt bts d logs, s.recipientName = none := by
  intro s hs
  unfold subannotationsOf at hs
  rw [List.mem_flatMap] at hs
  obtain ⟨l, _, hsl⟩ := hs
  rcases hm : matchFungibleAsset assets l.contractAddress with _ | m <;>
    simp only [hm] at hsl
  · exact absurd hsl (List.not_mem_nil s)
  · rw [List.mem_singleton] at hsl
    subst hsl
    simp [hnm]

theorem resolveNamesBatch_none (env : Env) (network : EVMNetwork)
    (hl : ∀ a n, env.lookUpName a n = Except.ok none)
    (addresses : List Address) (k : Address) :
    resolveNamesBatch env network addresses k = none := by
  unfold resolveNamesBatch fromEntries
  induction addresses with
  | nil => rfl
  | cons b rest ih =>
    rw [List.filterMap_cons, hl b network]
    exact ih

theorem resolvePrimary_names_none (env : Env) (network : EVMNetwork)
    (tx : AnyEVMTransaction) (d rt : Nat) (blk : Option AnyEVMBlock)
    (a0 : TransactionAnnotation)
    (hl : ∀ a n, env.lookUpName a n = Except.ok none)
    (h : resolvePrimary env network tx d rt blk = Except.ok (some a0)) :
    a0.recipientName = none ∧ a0.spenderName = none ∧ a0.contractName = none := by
  unfold resolvePrimary at h
  repeat' split at h
  all_goals simp_all
  all_goals (subst h; exact ⟨rfl, rfl, rfl⟩)

/-- C2: classification is total: whenever no collaborator lookup throws, the
resolver returns exactly one primary annotation — one of the four variants —
and never the no-annotation outcome. -/
theorem claim2_totality (env : Env) (network : EVMNetwork)
    (tx : AnyEVMTransaction) (d : Nat)
    (hl : ∀ a n, env.lookUpName a n ≠ Except.error ()) :
    ∃ ann, resolveTransactionAnnotation env network tx d = Except.ok (some ann) ∧
      (ann.type = AnnotationType.contractDeployment ∨
       ann.type = AnnotationType.assetTransfer ∨
       ann.type = AnnotationType.assetApproval ∨
       ann.type = AnnotationType.contractInteraction) := by
  obtain ⟨a0, hp⟩ := resolvePrimary_total env network tx d env.now (blockOf env network tx) hl
  have htypes : ∀ b : TransactionAnnotation,
      b.type = AnnotationType.contractDeployment ∨
      b.type = AnnotationType.assetTransfer ∨
      b.type = AnnotationType.assetApproval ∨
      b.type = AnnotationType.contractInteraction := by
    intro b
    cases hb : b.type
    · exact Or.inl rfl
    · exact Or.inr (Or.inl rfl)
    · exact Or.inr (Or.inr (Or.inl rfl))
    · exact Or.inr (Or.inr (Or.inr rfl))
  rcases hlogs : tx.logs with _ | logs
  · exact ⟨a0, resolve_eq_nologs env network tx d (some a0) hlogs hp, htypes a0⟩
  · have hres := resolve_eq_logs env network tx d (some a0) logs hlogs hp
    rw [attachSubs_some] at hres
    exact ⟨_, hres, htypes _⟩

theorem claim2_witness :
    ∃ ann, resolveTransactionAnnotation okNoneEnv ETHEREUM plainSendTx 2 =
        Except.ok (some ann) ∧
      (ann.type = AnnotationType.contractDeployment ∨
       ann.type = AnnotationType.assetTransfer ∨
       ann.type = AnnotationType.assetApproval ∨
       ann.type = AnnotationType.contractInteraction) :=
  claim2_totality okNoneEnv ETHEREUM plainSendTx 2
    (by intro a n h; simp [okNoneEnv] at h)

/-- C4: in the sub-annotation name-resolution batch every address resolves
independently: an address whose lookup rejects or returns no name maps to
no name, every other address maps to its own lookup's name, and the batch is
a total function (it never rejects). -/
theorem claim4_batch_independence (env : Env) (network : EVMNetwork)
    (addresses : List Address) (a : Address) (ha : a ∈ addresses)
    (hnd : (addresses.map normalizeEVMAddress).Nodup) :
    resolveNamesBatch env network addresses (normalizeEVMAddress a) =
      settledName (env.lookUpName a network) :=
  resolveNamesBatch_lookup env network addresses a ha hnd

theorem claim4_witness :
    resolveNamesBatch mixedNamesEnv ETHEREUM ["0xgood", "0xbad"]
        (normalizeEVMAddress "0xgood") = some "alice" ∧
    resolveNamesBatch mixedNamesEnv ETHEREUM ["0xgood", "0xbad"]
        (normalizeEVMAddress "0xbad") = none := by
  constructor
  · exact (claim4_batch_independence mixedNamesEnv ETHEREUM ["0xgood", "0xbad"] "0xgood"
      (by decide) (by decide)).trans rfl
  · exact (claim4_batch_independence mixedNamesEnv ETHEREUM ["0xgood", "0xbad"] "0xbad"
      (by decide) (by decide)).trans rfl

/-- C8: a typed-data request matching the EIP-2612 shape yields the permit
annotation carrying whatever asset the verifying contract matched (possibly
none — it does not fall back to unrecognized), and any other shape yields
exactly the unrecognized annotation. -/
theorem claim8_permit_shape (env : Env) (td : TypedData) :
    (∀ m, td.payload = TypedDataPayload.permit m →
      enrichSignTypedDataRequest env td =
        SignTypedDataAnnotation.eip2612Permit m.owner m.spender m.value m.deadline
          (correspondingAssetOf (env.getCachedAssets ETHEREUM) td)) ∧
    (td.payload = TypedDataPayload.other →
      enrichSignTypedDataRequest env td = SignTypedDataAnnotation.unrecognized) := by
  constructor
  · intro m hm
    simp [enrichSignTypedDataRequest, isEIP2612TypedData, enrichEIP2612SignTypedDataRequest, hm]
  · intro hm
    simp [enrichSignTypedDataRequest, isEIP2612TypedData, hm]

theorem claim8_witness :
    enrichSignTypedDataRequest okNoneEnv permitTd =
      SignTypedDataAnnotation.eip2612Permit "0xowner" "0xspender" 9 99 none ∧
    enrichSignTypedDataRequest okNoneEnv otherTd =
      SignTypedDataAnnotation.unrecognized := by
  constructor
  · exact ((claim8_permit_shape okNoneEnv permitTd).1 permitMessage rfl).trans rfl
  · exact (claim8_permit_shape okNoneEnv otherTd).2 rfl

/-- C9: the typed-data enrichment reads the known-asset snapshot only for
the hard-coded ETHEREUM constant: two environments agreeing on Ethereum's
snapshot produce identical annotations for every request, whatever chain
the request's domain names. -/
theorem claim9_ethereum_snapshot (env1 env2 : Env) (td : TypedData)
    (h : env1.getCachedAssets ETHEREUM = env2.getCachedAssets ETHEREUM) :
    enrichSignTypedDataRequest env1 td = enrichSignTypedDataRequest env2 td := by
  unfold enrichSignTypedDataRequest
  rw [h]

theorem claim9_witness :
    enrichSignTypedDataRequest assetsEnv permitTd =
      enrichSignTypedDataRequest mixedNamesEnv permitTd :=
  claim9_ethereum_snapshot assetsEnv mixedNamesEnv permitTd rfl

/-- C10: in the empty-input branch the choice depends only on whether the
value field is defined: any defined value — zero included — yields an
asset-transfer of that base-asset amount, and only an undefined value
yields contract-interaction. -/
theorem claim10_zero_value (env : Env) (network : EVMNetwork)
    (tx : AnyEVMTransaction) (d : Nat) (ann : TransactionAnnotation) (t : Address)
    (hto : tx.toAddr = some t)
    (hin : tx.input = none ∨ tx.input = some InputData.empty)
    (h : resolveTransactionAnnotation env network tx d = Except.ok (some ann)) :
    (∀ v, tx.value = some v →
      ann.type = AnnotationType.assetTransfer ∧
      ann.assetAmount = some (enrichAssetAmountWithDecimalValues
        { asset := AnyAsset.fungible network.baseAsset, amount := v } d)) ∧
    (tx.value = none → ann.type = AnnotationType.contractInteraction) := by
  obtain ⟨a0, hp, htype, hts, hbts, hsend, hrec, hrecn, hspa, hspn, hcn, hamt, hlogo⟩ :=
    resolve_ok_elim env network tx d ann h
  rw [resolvePrimary_emptyInput env network tx d env.now (blockOf env network tx) t hto hin] at hp
  rcases hlu : env.lookUpName t network with e | nm
  · rw [hlu] at hp; simp at hp
  · rw [hlu] at hp
    constructor
    · intro v hv
      rw [hv] at hp
      injection hp with hp1
      injection hp1 with hp2
      subst hp2
      exact ⟨htype, hamt⟩
    · intro hv
      rw [hv] at hp
      injection hp with hp1
      injection hp1 with hp2
      subst hp2
      exact htype

theorem claim10_witness :
    resolveTransactionAnnotation okNoneEnv ETHEREUM zeroValueTx 2 =
      Except.ok (some zeroValueAnn) ∧
    zeroValueAnn.type = AnnotationType.assetTransfer ∧
    zeroValueAnn.assetAmount = some (enrichAssetAmountWithDecimalValues
      { asset := AnyAsset.fungible ETHEREUM.baseAsset, amount := 0 } 2) := by
  refine ⟨rfl, ?_⟩
  exact (claim10_zero_value okNoneEnv ETHEREUM zeroValueTx 2 zeroValueAnn "0xyou" rfl
    (Or.inr rfl) rfl).1 0 rfl

/-- C5 fails as stated: a rejecting name lookup in the single-address
empty-input branch propagates out of the resolver instead of being
swallowed. -/
theorem claim5_counterexample :
    resolveTransactionAnnotation rejectingEnv ETHEREUM plainSendTx 2 =
      Except.error () := rfl

/-- C5 (amended): a name lookup that resolves with no name is never fatal in
any branch — the annotation is still produced with every name field absent,
including the batched sub-annotation recipient names; only a rejected
single-address lookup escapes the resolver. -/
theorem claim5_amended (env : Env) (network : EVMNetwork)
    (tx : AnyEVMTransaction) (d : Nat)
    (hl : ∀ a n, env.lookUpName a n = Except.ok none) :
    ∃ ann, resolveTransactionAnnotation env network tx d = Except.ok (some ann) ∧
      ann.recipientName = none ∧ ann.spenderName = none ∧ ann.contractName = none ∧
      (∀ subs, ann.subannotations = some subs → ∀ s ∈ subs, s.recipientName = none) := by
  have hl' : ∀ a n, env.lookUpName a n ≠ Except.error () := by
    intro a n hc
    rw [hl a n] at hc
    cases hc
  obtain ⟨a0, hp⟩ := resolvePrimary_total env network tx d env.now (blockOf env network tx) hl'
  obtain ⟨hrn, hsn, hcn⟩ := resolvePrimary_names_none env network tx d env.now
    (blockOf env network tx) a0 hl hp
  have hsubs0 := resolvePrimary_subs_none env network tx d env.now (blockOf env network tx) a0 hp
  rcases hlogs : tx.logs with _ | logs
  · refine ⟨a0, resolve_eq_nologs env network tx d (some a0) hlogs hp, hrn, hsn, hcn, ?_⟩
    intro subs hsubs
    rw [hsubs0] at hsubs
    cases hsubs
  · have hres := resolve_eq_logs env network tx d (some a0) logs hlogs hp
    rw [attachSubs_some] at hres
    by_cases hc : (subannotationsOf (env.getCachedAssets network)
        (resolveNamesBatch env network (batchAddresses (parseLogsForERC20Transfers logs)))
        env.now ((blockOf env network tx).map fun b => b.timestamp) d
        (parseLogsForERC20Transfers logs)).length > 0
    · rw [if_pos hc] at hres
      refine ⟨_, hres, hrn, hsn, hcn, ?_⟩
      intro subs hsubs
      injection hsubs with hsubs
      subst hsubs
      intro s hs
      exact recipientName_subannotationsOf _ _ _ _ _ _
        (fun k => resolveNamesBatch_none env network hl _ k) s hs
    · rw [if_neg hc] at hres
      refine ⟨a0, hres, hrn, hsn, hcn, ?_⟩
      intro subs hsubs
      rw [hsubs0] at hsubs
      cases hsubs

theorem claim5_witness :
    ∃ ann, resolveTransactionAnnotation okNoneEnv ETHEREUM interactionTx 2 =
        Except.ok (some ann) ∧
      ann.recipientName = none ∧ ann.spenderName = none ∧ ann.contractName = none ∧
      (∀ subs, ann.subannotations = some subs → ∀ s ∈ subs, s.recipientName = none) :=
  claim5_amended okNoneEnv ETHEREUM interactionTx 2 (fun _ _ => rfl)

/-- C6 fails as stated: a decoded `Transfer` log whose contract matches no
known asset still contributes its recipient to the lookup batch. -/
theorem claim6_counterexample :
    batchAddresses [unmatchedLog] = ["0xbbb"] ∧
    claimedBatchAddresses [] [unmatchedLog] = [] ∧
    batchAddresses [unmatchedLog] ≠ claimedBatchAddresses [] [unmatchedLog] := by
  refine ⟨rfl, rfl, ?_⟩
  decide

/-- C6 (amended): the batch address set is the distinct recipient addresses
of all decoded `Transfer` logs, matched or not: deduplicated, and an address
is submitted exactly when some decoded log names it as recipient. -/
theorem claim6_amended (logs : List ERC20TransferLog) :
    (batchAddresses logs).Nodup ∧
    ∀ a, a ∈ batchAddresses logs ↔ a ∈ logs.map (fun l => l.recipientAddress) := by
  constructor
  · exact nodup_insertionDedup _ _
  · intro a
    unfold batchAddresses
    rw [mem_insertionDedup]
    simp

/-- C7 fails as stated: a transaction with empty input targeting a known
asset with a logo URL is annotated without any `transactionLogoURL`. -/
theorem claim7_counterexample :
    matchFungibleAsset (assetsEnv.getCachedAssets ETHEREUM) "0xtoken" = some tokenAsset ∧
    (tokenAsset.metadata.bind fun md => md.logoURL) = some "https://logo" ∧
    resolveTransactionAnnotation assetsEnv ETHEREUM interactionTx 2 =
      Except.ok (some { type := AnnotationType.contractInteraction, timestamp := 0, blockTimestamp := none }) ∧
    ({ type := AnnotationType.contractInteraction, timestamp := 0, blockTimestamp := none } :
      TransactionAnnotation).transactionLogoURL = none :=
  ⟨rfl, rfl, rfl, rfl⟩

/-- C7 (amended): for every transaction whose input data is present and
non-empty and whose target matches a known fungible asset, the annotation
carries the matched asset's logo URL whatever the decode outcome — the
contract-interaction fallback included. -/
theorem claim7_amended (env : Env) (network : EVMNetwork)
    (tx : AnyEVMTransaction) (d : Nat) (ann : TransactionAnnotation)
    (t : Address) (data : InputData) (m : SmartContractFungibleAsset)
    (hto : tx.toAddr = some t)
    (hin : tx.input = some data)
    (hne : data ≠ InputData.empty)
    (hm : matchFungibleAsset (env.getCachedAssets network) t = some m)
    (h : resolveTransactionAnnotation env network tx d = Except.ok (some ann)) :
    ann.transactionLogoURL = m.metadata.bind fun md => md.logoURL := by
  have hne' : ¬(tx.input = none ∨ tx.input = some InputData.empty) := by
    rw [hin]
    rintro (hc | hc)
    · cases hc
    · injection hc with hc
      exact hne hc
  obtain ⟨a0, hp, htype, hts, hbts, hsend, hrec, hrecn, hspa, hspn, hcn, hamt, hlogo⟩ :=
    resolve_ok_elim env network tx d ann h
  rw [hlogo]
  rcases hpe : parseERC20Tx tx.input with _ | etx
  · rw [resolvePrimary_fallbackNoDecode env network tx d env.now (blockOf env network tx)
      t (some m) hto hne' hm hpe] at hp
    rcases hlu : env.lookUpName t network with e | nm
    · rw [hlu] at hp; simp at hp
    · rw [hlu] at hp
      injection hp with hp1
      injection hp1 with hp2
      subst hp2
      rfl
  · rcases etx with ⟨ta, am⟩ | ⟨sa, ta, am⟩ | ⟨sp, va⟩
    · rw [resolvePrimary_transfer env network tx d env.now (blockOf env network tx)
        t ta am m hto hne' hm hpe] at hp
      rcases hlu : env.lookUpName ta network with e | nm
      · rw [hlu] at hp; simp at hp
      · rw [hlu] at hp
        injection hp with hp1
        injection hp1 with hp2
        subst hp2
        rfl
    · rw [resolvePrimary_transferFrom env network tx d env.now (blockOf env network tx)
        t sa ta am m hto hne' hm hpe] at hp
      rcases hlu : env.lookUpName ta network with e | nm
      · rw [hlu] at hp; simp at hp
      · rw [hlu] at hp
        injection hp with hp1
        injection hp1 with hp2
        subst hp2
        rfl
    · rw [resolvePrimary_approve env network tx d env.now (blockOf env network tx)
        t sp va m hto hne' hm hpe] at hp
      rcases hlu : env.lookUpName sp network with e | nm
      · rw [hlu] at hp; simp at hp
      · rw [hlu] at hp
        injection hp with hp1
        injection hp1 with hp2
        subst hp2
        rfl

theorem claim7_witness :
    resolveTransactionAnnotation assetsEnv ETHEREUM unknownCallTx 2 =
      Except.ok (some unknownCallAnn) ∧
    unknownCallAnn.transactionLogoURL = (tokenAsset.metadata.bind fun md => md.logoURL) := by
  refine ⟨rfl, ?_⟩
  exact claim7_amended assetsEnv ETHEREUM unknownCallTx 2 unknownCallAnn "0xtoken"
    (InputData.unknownCall "0xdeadbeef") tokenAsset rfl rfl (by decide) rfl rfl

/-- C3: with logs present, the sub-annotation list has exactly one entry per
decoded `Transfer` log that matched a known asset, and the field is attached
only when that count is positive. -/
theorem claim3_subannotation_count (env : Env) (network : EVMNetwork)
    (tx : AnyEVMTransaction) (d : Nat) (ann : TransactionAnnotation)
    (logs : List EVMLog) (hlogs : tx.logs = some logs)
    (h : resolveTransactionAnnotation env network tx d = Except.ok (some ann)) :
    (matchedLogCount (env.getCachedAssets network) (parseLogsForERC20Transfers logs) = 0 →
      ann.subannotations = none) ∧
    (0 < matchedLogCount (env.getCachedAssets network) (parseLogsForERC20Transfers logs) →
      ∃ subs, ann.subannotations = some subs ∧
        subs.length =
          matchedLogCount (env.getCachedAssets network) (parseLogsForERC20Transfers logs)) := by
  rw [resolve_eq] at h
  rcases hp : resolvePrimary env network tx d env.now (blockOf env network tx) with e | o
  · rw [hp] at h
    simp at h
  · rw [hp, hlogs] at h
    injection h with h1
    rcases o with _ | a0
    · rw [attachSubs_none] at h1
      simp at h1
    · have hsubs0 := resolvePrimary_subs_none env network tx d env.now (blockOf env network tx) a0 hp
      have hlen := length_subannotationsOf (env.getCachedAssets network)
        (resolveNamesBatch env network (batchAddresses (parseLogsForERC20Transfers logs)))
        env.now ((blockOf env network tx).map fun b => b.timestamp) d
        (parseLogsForERC20Transfers logs)
      rw [attachSubs_some] at h1
      injection h1 with h2
      subst h2
      constructor
      · intro hM
        rw [if_neg (by rw [hlen]; omega)]
        exact hsubs0
      · intro hM
        rw [if_pos (by rw [hlen]; omega)]
        exact ⟨_, rfl, hlen⟩

theorem claim3_witness :
    matchedLogCount (assetsEnv.getCachedAssets ETHEREUM)
      (parseLogsForERC20Transfers [EVMLog.transferLog "0xToKeN" "0xa" "0xgood" 5,
        EVMLog.transferLog "0xother" "0xc" "0xd" 9, EVMLog.otherLog]) = 1 ∧
    ∃ subs, loggedAnn.subannotations = some subs ∧ subs.length = 1 := by
  refine ⟨rfl, ?_⟩
  exact (claim3_subannotation_count assetsEnv ETHEREUM loggedTx 2 loggedAnn
    [EVMLog.transferLog "0xToKeN" "0xa" "0xgood" 5,
      EVMLog.transferLog "0xother" "0xc" "0xd" 9, EVMLog.otherLog] rfl rfl).2 (by decide)

/-- C1: the primary annotation type follows the fixed first-match rule order
(deployment on missing recipient; empty input splits on value presence;
decoded transfer or transferFrom with a matched asset gives asset-transfer
with the decoded recipient and amount, the sender being the decoded source
when present and the raw sender otherwise; decoded approve with a matched
asset gives asset-approval with the decoded spender and amount; anything
else is contract-interaction). -/
theorem claim1_classification_order (env : Env) (network : EVMNetwork)
    (tx : AnyEVMTransaction) (d : Nat) (ann : TransactionAnnotation)
    (h : resolveTransactionAnnotation env network tx d = Except.ok (some ann)) :
    ann.type = specPrimaryType (env.getCachedAssets network) tx ∧
    (tx.toAddr = none → ann.type = AnnotationType.contractDeployment) ∧
    (∀ t v, tx.toAddr = some t →
      (tx.input = none ∨ tx.input = some InputData.empty) → tx.value = some v →
      ann.type = AnnotationType.assetTransfer ∧
      ann.senderAddress = some tx.fromAddr ∧
      ann.recipientAddress = some t ∧
      ann.assetAmount = some (enrichAssetAmountWithDecimalValues
        { asset := AnyAsset.fungible network.baseAsset, amount := v } d)) ∧
    (∀ t ta am m, tx.toAddr = some t →
      parseERC20Tx tx.input = some (ERC20Tx.transfer ta am) →
      matchFungibleAsset (env.getCachedAssets network) t = some m →
      ann.type = AnnotationType.assetTransfer ∧
      ann.senderAddress = some tx.fromAddr ∧
      ann.recipientAddress = some ta ∧
      ann.assetAmount = some (enrichAssetAmountWithDecimalValues
        { asset := AnyAsset.smartContractFungible m, amount := am } d)) ∧
    (∀ t sa ta am m, tx.toAddr = some t →
      parseERC20Tx tx.input = some (ERC20Tx.transferFrom sa ta am) →
      matchFungibleAsset (env.getCachedAssets network) t = some m →
      ann.type = AnnotationType.assetTransfer ∧
      ann.senderAddress = some sa ∧
      ann.recipientAddress = some ta ∧
      ann.assetAmount = some (enrichAssetAmountWithDecimalValues
        { asset := AnyAsset.smartContractFungible m, amount := am } d)) ∧
    (∀ t sp va m, tx.toAddr = some t →
      parseERC20Tx tx.input = some (ERC20Tx.approve sp va) →
      matchFungibleAsset (env.getCachedAssets network) t = some m →
      ann.type = AnnotationType.assetApproval ∧
      ann.spenderAddress = some sp ∧
      ann.assetAmount = some (enrichAssetAmountWithDecimalValues
        { asset := AnyAsset.smartContractFungible m, amount := va } d)) := by
  obtain ⟨a0, hp, htype, hts, hbts, hsend, hrec, hrecn, hspa, hspn, hcn, hamt, hlogo⟩ :=
    resolve_ok_elim env network tx d ann h
  refine ⟨?_, ?_, ?_, ?_, ?_, ?_⟩
  · rw [htype]
    exact resolvePrimary_type env network tx d env.now (blockOf env network tx) a0 hp
  · intro hto
    rw [htype, resolvePrimary_type env network tx d env.now (blockOf env network tx) a0 hp]
    simp [specPrimaryType, hto]
  · intro t v hto hin hv
    rw [resolvePrimary_emptyInput env network tx d env.now (blockOf env network tx) t hto hin] at hp
    rcases hlu : env.lookUpName t network with e | nm
    · rw [hlu] at hp; simp at hp
    · rw [hlu, hv] at hp
      injection hp with hp1
      injection hp1 with hp2
      subst hp2
      exact ⟨htype, hsend, hrec, hamt⟩
  · intro t ta am m hto hpe hm
    have hne' := parse_some_ne_empty tx _ hpe
    rw [resolvePrimary_transfer env network tx d env.now (blockOf env network tx)
      t ta am m hto hne' hm hpe] at hp
    rcases hlu : env.lookUpName ta network with e | nm
    · rw [hlu] at hp; simp at hp
    · rw [hlu] at hp
      injection hp with hp1
      injection hp1 with hp2
      subst hp2
      exact ⟨htype, hsend, hrec, hamt⟩
  · intro t sa ta am m hto hpe hm
    have hne' := parse_some_ne_empty tx _ hpe
    rw [resolvePrimary_transferFrom env network tx d env.now (blockOf env network tx)
      t sa ta am m hto hne' hm hpe] at hp
    rcases hlu : env.lookUpName ta network with e | nm
    · rw [hlu] at hp; simp at hp
    · rw [hlu] at hp
      injection hp with hp1
      injection hp1 with hp2
      subst hp2
      exact ⟨htype, hsend, hrec, hamt⟩
  · intro t sp va m hto hpe hm
    have hne' := parse_some_ne_empty tx _ hpe
    rw [resolvePrimary_approve env network tx d env.now (blockOf env network tx)
      t sp va m hto hne' hm hpe] at hp
    rcases hlu : env.lookUpName sp network with e | nm
    · rw [hlu] at hp; simp at hp
    · rw [hlu] at hp
      injection hp with hp1
      injection hp1 with hp2
      subst hp2
      exact ⟨htype, hspa, hamt⟩

theorem claim1_witness :
    resolveTransactionAnnotation assetsEnv ETHEREUM transferTx 2 =
      Except.ok (some transferAnn) ∧
    transferAnn.type = AnnotationType.assetTransfer ∧
    transferAnn.recipientAddress = some "0xbbb" ∧
    transferAnn.senderAddress = some "0xme" := by
  refine ⟨rfl, ?_, ?_, ?_⟩
  · exact ((claim1_classification_order assetsEnv ETHEREUM transferTx 2 transferAnn rfl).2.2.2.1
      "0xtoken" "0xbbb" 5000000 tokenAsset rfl rfl rfl).1
  · exact ((claim1_classification_order assetsEnv ETHEREUM transferTx 2 transferAnn rfl).2.2.2.1
      "0xtoken" "0xbbb" 5000000 tokenAsset rfl rfl rfl).2.2.1
  · exact ((claim1_classification_order assetsEnv ETHEREUM transferTx 2 transferAnn rfl).2.2.2.1
      "0xtoken" "0xbbb" 5000000 tokenAsset rfl rfl rfl).2.1

theorem claim6_witness :
    (batchAddresses [unmatchedLog]).Nodup ∧
    ("0xbbb" ∈ batchAddresses [unmatchedLog] ↔
      "0xbbb" ∈ [unmatchedLog].map (fun l => l.recipientAddress)) :=
  ⟨(claim6_amended [unmatchedLog]).1, (claim6_amended [unmatchedLog]).2 "0xbbb"⟩
